import Mathlib

/-!
Verification of the ServiceNow change-request adapter/connector pair.

The development embeds the two JavaScript source files:
* `connector.js` (class `ServiceNowConnector`): `constructUri`, `isHibernating`,
  `processRequestResults`, and the fixed field-projection applied to the `result`
  array of a GET response.
* `main.js` (class `ServiceNowAdapter`): `healthcheck` together with
  `emitOnline` / `emitOffline` / `emitStatus` and the adapter-level logging.

JavaScript values that can flow through the connector are embedded as the
inductive `Json` below; `undefined` is a first-class value (`Json.undefined`)
because property reads of absent keys yield it and property writes of it still
create the key.  Machine-level details that the code never observes (number
arithmetic on parsed payloads) are kept symbolic: a parsed JSON number stores
its source text.
-/

set_option linter.unusedVariables false

namespace SNow

/-- A JavaScript value as it can appear in a parsed response body or in a
record field.  `undefined` is JavaScript's `undefined`.  `num` keeps the numeric
literal's source text: the connector never computes with parsed numbers.
`arr` carries both the indexed elements and the named properties an array
object can hold, since JavaScript arrays are objects. -/
inductive Json where
  | undefined : Json
  | null : Json
  | bool (b : Bool) : Json
  | num (lit : String) : Json
  | str (s : String) : Json
  | arr (elems : List Json) (props : List (String × Json)) : Json
  | obj (fields : List (String × Json)) : Json

/-- A JavaScript object: an insertion-ordered association of field names to
values, mirroring one element of the ServiceNow `result` array. -/
abbrev Record := List (String × Json)

/-- Property read `r[k]`: the value of the first matching key, or `undefined`
when the key is absent. -/
def getField : Record → String → Json
  | [], _ => .undefined
  | (k', v) :: rest, k => if k' = k then v else getField rest k

/-- Key-presence test, the embedding of JavaScript's `k in r`. -/
def hasField : Record → String → Bool
  | [], _ => false
  | (k', _) :: rest, k => k' = k || hasField rest k

/-- Property write `r[k] = v`: replaces the value in place when the key is
present, otherwise appends the key at the end (JavaScript insertion order). -/
def setField : Record → String → Json → Record
  | [], k, v => [(k, v)]
  | (k', v') :: rest, k, v =>
      if k' = k then (k, v) :: rest else (k', v') :: setField rest k v

/-- Property removal `delete r[k]`. -/
def deleteField (r : Record) (k : String) : Record :=
  r.filter (fun p => p.1 ≠ k)

/-- The fixed removal set of `processRequestResults`, transcribed in source
order from the block of `delete result.<field>` statements (the duplicated
`approval_history` and `test_plan` entries of the source are kept). -/
def removalFields : List String :=
  ["number", "sys_id", "parent", "reason", "watch_list", "upon_reject",
   "sys_updated_on", "type", "approval_history", "test_plan", "cab_delegate",
   "requested_by_date", "state", "sys_created_by", "knowledge", "order",
   "phase", "cmdb_ci", "delivery_plan", "contract", "impact",
   "work_notes_list", "sys_domain_path", "cab_recommendation",
   "production_system", "review_date", "business_duration", "group_list",
   "requested_by", "change_plan", "approval_set", "implementation_plan",
   "approval_history", "test_plan", "correlation_display", "delivery_task",
   "additional_assignee_list", "outside_maintenance_schedule", "end_date",
   "short_description", "std_change_producer_version", "service_offering",
   "sys_class_name", "closed_by", "follow_up", "reassignment_count",
   "review_status", "assigned_to", "start_date", "sla_due",
   "comments_and_work_notes", "escalation", "upon_approval", "correlation_id",
   "made_sla", "backout_plan", "conflict_status", "sys_updated_by",
   "opened_by", "user_input", "sys_created_on", "on_hold_task", "sys_domain",
   "closed_at", "review_comments", "business_service", "time_worked",
   "expected_start", "opened_at", "phase_state", "cab_date", "work_notes",
   "close_code", "assignment_group", "on_hold_reason", "calendar_duration",
   "close_notes", "contact_type", "cab_required", "urgency", "scope",
   "company", "justification", "activity_due", "comments", "approval",
   "due_date", "sys_mod_count", "on_hold", "sys_tags", "conflict_last_run",
   "unauthorized", "location", "risk", "category", "risk_impact_analysis"]

/-- The per-record body of the `results.forEach` callback: assign
`change_ticket_number` from `number`, assign `change_ticket_key` from
`sys_id` (read after the first assignment, as in the source), then delete
every field of the removal set in order. -/
def normalizeRecord (r : Record) : Record :=
  let r1 := setField r "change_ticket_number" (getField r "number")
  let r2 := setField r1 "change_ticket_key" (getField r1 "sys_id")
  removalFields.foldl (fun acc k => deleteField acc k) r2

/-- `beginsWith s p` holds when `p` is an initial segment of `s`. -/
def beginsWith : List Char → List Char → Bool
  | _, [] => true
  | [], _ :: _ => false
  | c :: cs, d :: ds => c = d && beginsWith cs ds

/-- Substring occurrence test over character lists. -/
def containsChars : List Char → List Char → Bool
  | [], sub => sub.isEmpty
  | c :: cs, sub => beginsWith (c :: cs) sub || containsChars cs sub

/-- The embedding of JavaScript's `String.prototype.includes`. -/
def strIncludes (s sub : String) : Bool := containsChars s.toList sub.toList

/-- An unanchored match of the regular expression `(2\d\d)`: some position of
the input starts with the digit `2` followed by two digits. -/
def regexTest2dd : List Char → Bool
  | c1 :: c2 :: c3 :: rest =>
      (c1 = '2' && c2.isDigit && c3.isDigit) || regexTest2dd (c2 :: c3 :: rest)
  | _ => false

/-- Decimal rendering of an integer, the JavaScript `String(n)` coercion that
`RegExp.prototype.test` applies to a numeric status code. -/
def statusStr (c : Int) : String :=
  if c < 0 then "-" ++ Nat.repr c.natAbs else Nat.repr c.natAbs

/-- `validResponseRegex.test(response.statusCode)` from the source:
the unanchored regex `(2\d\d)` applied to the decimal string of the code. -/
def validResponseTest (c : Int) : Bool := regexTest2dd (statusStr c).toList

/-- The HTTP response object as the connector observes it: a numeric status
code and a string body. -/
structure Response where
  statusCode : Int
  body : String
deriving DecidableEq

/-- `isHibernating(response)` from the source: the body contains the
hibernating-page marker and an `<html>` tag, and the status code is 200. -/
def isHibernating (r : Response) : Bool :=
  strIncludes r.body "Instance Hibernating page" &&
    (strIncludes r.body "<html>" && decide (r.statusCode = 200))

/-- One call into the global logging collaborator. -/
structure LogEntry where
  level : String
  msg : String
deriving DecidableEq

/-- The two unguarded fault kinds the success branch can raise: a
`SyntaxError` from `JSON.parse` and a `TypeError` from using a missing or
non-array `result` (or from a strict-mode write to a primitive element). -/
inductive JsError where
  | syntaxError
  | typeError
deriving DecidableEq

/-- A JavaScript slot that distinguishes `null`, `undefined` and a value:
the callback's error channel needs all three. -/
inductive JsOpt (α : Type) where
  | null
  | undefined
  | val (a : α)

/-- The values the connector can place on the callback's error channel: the
transport error forwarded as-is, the string `"Hibernating instance"`, or the
raw response object.  `ε` is the (never inspected) transport-error type. -/
inductive ErrVal (ε : Type) where
  | transport (e : ε)
  | str (s : String)
  | resp (r : Response)

/-- Observable outcome of one `processRequestResults` invocation: either the
callback is invoked exactly once with a data and an error argument, or an
error propagates uncaught and the callback never runs.  `logs` collects the
calls made into the logging collaborator. -/
inductive PRResult (ε : Type) where
  | callback (data : Option Json) (err : JsOpt (ErrVal ε)) (logs : List LogEntry)
  | thrown (k : JsError) (logs : List LogEntry)

/-- Whitespace skipped by the JSON grammar. -/
def isWsChar (c : Char) : Bool :=
  c = ' ' || c = '\n' || c = '\t' || c = '\r'

def skipWs (cs : List Char) : List Char := cs.dropWhile isWsChar

/-- Single-character JSON string escapes. -/
def escapeChar (c : Char) : Option Char :=
  if c = '"' then some '"'
  else if c = '\\' then some '\\'
  else if c = '/' then some '/'
  else if c = 'b' then some (Char.ofNat 8)
  else if c = 'f' then some (Char.ofNat 12)
  else if c = 'n' then some '\n'
  else if c = 'r' then some '\r'
  else if c = 't' then some '\t'
  else none

def hexDigitVal (c : Char) : Option Nat :=
  if '0' ≤ c ∧ c ≤ '9' then some (c.toNat - '0'.toNat)
  else if 'a' ≤ c ∧ c ≤ 'f' then some (c.toNat - 'a'.toNat + 10)
  else if 'A' ≤ c ∧ c ≤ 'F' then some (c.toNat - 'A'.toNat + 10)
  else none

/-- Characters of a JSON string literal after the opening quote, with escape
decoding; returns the decoded characters and the input after the closing
quote. -/
def parseStrChars : List Char → Option (List Char × List Char)
  | [] => none
  | c :: rest =>
    if c = '"' then some ([], rest)
    else if c = '\\' then
      match rest with
      | [] => none
      | e :: rest2 =>
        if e = 'u' then
          match rest2 with
          | a :: b :: c2 :: d :: rest3 =>
            match hexDigitVal a, hexDigitVal b, hexDigitVal c2, hexDigitVal d with
            | some ha, some hb, some hc, some hd =>
              match parseStrChars rest3 with
              | some (cs, rem) =>
                  some (Char.ofNat (((ha * 16 + hb) * 16 + hc) * 16 + hd) :: cs, rem)
              | none => none
            | _, _, _, _ => none
          | _ => none
        else
          match escapeChar e with
          | some ec =>
            match parseStrChars rest2 with
            | some (cs, rem) => some (ec :: cs, rem)
            | none => none
          | none => none
    else
      match parseStrChars rest with
      | some (cs, rem) => some (c :: cs, rem)
      | none => none

def numLitChar (c : Char) : Bool :=
  c.isDigit || c = '-' || c = '+' || c = '.' || c = 'e' || c = 'E'

/-- A numeric literal is kept as its source text: the connector never
computes with parsed numbers (the lexing is permissive, which only widens
the set of accepted bodies). -/
def parseNumLit (cs : List Char) : Option (String × List Char) :=
  let lit := cs.takeWhile numLitChar
  if lit.isEmpty then none
  else some (String.mk lit, cs.drop lit.length)

mutual

/-- Model of the JavaScript `JSON.parse` builtin (a platform function, not
repository code): fuel-indexed recursive-descent parse of one JSON value,
returning the value and the unconsumed input. -/
def parseVal : Nat → List Char → Option (Json × List Char)
  | 0, _ => none
  | fuel + 1, cs =>
    match skipWs cs with
    | [] => none
    | c :: rest =>
      if c = '\x7b' then parseObjRest fuel [] rest
      else if c = '[' then parseArrRest fuel [] rest
      else if c = '"' then
        match parseStrChars rest with
        | some (s, rem) => some (.str (String.mk s), rem)
        | none => none
      else if c = 't' then
        match rest with
        | 'r' :: 'u' :: 'e' :: rem => some (.bool true, rem)
        | _ => none
      else if c = 'f' then
        match rest with
        | 'a' :: 'l' :: 's' :: 'e' :: rem => some (.bool false, rem)
        | _ => none
      else if c = 'n' then
        match rest with
        | 'u' :: 'l' :: 'l' :: rem => some (.null, rem)
        | _ => none
      else
        match parseNumLit (c :: rest) with
        | some (lit, rem) => some (.num lit, rem)
        | none => none

/-- Members of an object literal after the opening brace.  Duplicate keys
follow JavaScript: first position, last value (`setField`). -/
def parseObjRest : Nat → List (String × Json) → List Char → Option (Json × List Char)
  | 0, _, _ => none
  | fuel + 1, acc, cs =>
    match skipWs cs with
    | '\x7d' :: rest => some (.obj acc, rest)
    | '"' :: rest =>
      match parseStrChars rest with
      | some (kcs, rem1) =>
        match skipWs rem1 with
        | ':' :: rem2 =>
          match parseVal fuel rem2 with
          | some (v, rem3) =>
            match skipWs rem3 with
            | ',' :: rem4 => parseObjRest fuel (setField acc (String.mk kcs) v) rem4
            | '\x7d' :: rem4 => some (.obj (setField acc (String.mk kcs) v), rem4)
            | _ => none
          | none => none
        | _ => none
      | none => none
    | _ => none

/-- Elements of an array literal after the opening bracket. -/
def parseArrRest : Nat → List Json → List Char → Option (Json × List Char)
  | 0, _, _ => none
  | fuel + 1, acc, cs =>
    match skipWs cs with
    | ']' :: rest => some (.arr acc [], rest)
    | _ =>
      match parseVal fuel cs with
      | some (v, rem) =>
        match skipWs rem with
        | ',' :: rem2 => parseArrRest fuel (acc ++ [v]) rem2
        | ']' :: rem2 => some (.arr (acc ++ [v]) [], rem2)
        | _ => none
      | none => none

end

/-- `JSON.parse` on a whole body: `none` models a thrown `SyntaxError`. -/
def parseJson (s : String) : Option Json :=
  match parseVal (2 * s.length + 2) s.toList with
  | some (j, rem) => if (skipWs rem).isEmpty then some j else none
  | none => none

/-- The property read `jsonBody.result`: throws a `TypeError` on `null` (or
`undefined`), looks the key up on objects and on the named properties of
arrays, and yields `undefined` on primitives (which box silently). -/
def getResultField : Json → Except JsError Json
  | .null => .error .typeError
  | .undefined => .error .typeError
  | .obj fields => .ok (getField fields "result")
  | .arr _ props => .ok (getField props "result")
  | _ => .ok .undefined

/-- One iteration of the `results.forEach` callback.  Objects get the field
projection; array objects get it on their named properties; a write to a
primitive or `null` element throws a `TypeError` (class bodies are strict
mode). -/
def normalizeElem : Json → Except JsError Json
  | .obj fields => .ok (.obj (normalizeRecord fields))
  | .arr elems props => .ok (.arr elems (normalizeRecord props))
  | _ => .error .typeError

/-- `results.forEach(...)` over the whole array, stopping at the first
thrown `TypeError`. -/
def normalizeElems : List Json → Except JsError (List Json)
  | [] => .ok []
  | x :: xs =>
    match normalizeElem x with
    | .error k => .error k
    | .ok y =>
      match normalizeElems xs with
      | .error k => .error k
      | .ok ys => .ok (y :: ys)

/-- Total description of the projection on one element, agreeing with
`normalizeElem` whenever the latter does not throw. -/
def projElem : Json → Json
  | .obj fields => .obj (normalizeRecord fields)
  | .arr elems props => .arr elems (normalizeRecord props)
  | j => j

/-- `processRequestResults(error, response, body, callback)` from the source.
The callback is not passed as an argument: the returned `PRResult` records
the unique invocation of it (or the uncaught error that prevents it).  The
`body` parameter is accepted and ignored exactly as in the source, whose
success branch reads `response.body`. -/
def processRequestResults {ε : Type} (error : Option ε) (response : Response)
    (body : String) : PRResult ε :=
  match error with
  | some e => .callback none (.val (.transport e)) [⟨"error", "Error present."⟩]
  | none =>
    if isHibernating response then
      .callback none (.val (.str "Hibernating instance"))
        [⟨"error", "Hibernating instance"⟩]
    else if !validResponseTest response.statusCode then
      .callback none (.val (.resp response)) [⟨"error", "Bad response code."⟩]
    else if response.body ≠ "" then
      match parseJson response.body with
      | none => .thrown .syntaxError []
      | some jsonBody =>
        match getResultField jsonBody with
        | .error k => .thrown k []
        | .ok (.arr elems props) =>
          match normalizeElems elems with
          | .error k => .thrown k []
          | .ok outs => .callback (some (.arr outs props)) .null []
        | .ok _ => .thrown .typeError []
    else
      .callback none .null []

/-- The connector's constructor options (`url`, `username`, `password`,
`serviceNowTable`). -/
structure ConnectorOptions where
  url : String
  username : String
  password : String
  serviceNowTable : String
deriving DecidableEq

/-- A connector together with the trace of its calls into the logging
collaborator, so that absence of configuration writes is provable. -/
structure ConnectorState where
  options : ConnectorOptions
  logTrace : List LogEntry
deriving DecidableEq

/-- `constructUri(query = null)` from the source: the table path, suffixed
with `?` and the query when the query argument is truthy (non-null and
non-empty), plus one debug log line.  Returns the uri and the state after
the call. -/
def constructUriM (s : ConnectorState) (query : Option String) :
    String × ConnectorState :=
  let uri0 := "/api/now/table/" ++ s.options.serviceNowTable
  let uri :=
    match query with
    | some q => if q ≠ "" then uri0 ++ "?" ++ q else uri0
    | none => uri0
  (uri, ⟨s.options, s.logTrace ++ [⟨"debug", "URI: " ++ uri⟩]⟩)

/-- Truthiness of the value the adapter's healthcheck callback receives on
its error channel.  The three values the connector can assign (a transport
`Error` object, the non-empty string `"Hibernating instance"`, the response
object) are all truthy; `null` is falsy. -/
def errTruthy {ε : Type} : JsOpt (ErrVal ε) → Bool
  | .val _ => true
  | _ => false

/-- Outcome of one `healthcheck` call: either an uncaught error from the
connector's success branch, or completion with the emitted events (name and
`id` payload), the combined log trace, and the arguments handed to the
optional healthcheck callback (`none` when no callback was supplied). -/
inductive HealthcheckResult (ε : Type) where
  | thrown (k : JsError) (logs : List LogEntry)
  | completed (events : List (String × String)) (logs : List LogEntry)
      (callbackCall : Option (Option Json × JsOpt (ErrVal ε)))

/-- `healthcheck(callback)` from `main.js`, applied to the transport triple
`(error, response, body)` that the injected HTTP client delivers for the
single GET issued through `getRecord` → `connector.get` → `sendRequest`.
On a truthy error: one adapter error log naming `this.id`, an `OFFLINE`
event with `{id}`, a warn log, then the optional callback with
`(result, error)`.  Otherwise: a debug log, an `ONLINE` event with `{id}`,
an info log, then the optional callback with `(result, error)`. -/
def healthcheckRun {ε : Type} (id : String) (opts : ConnectorOptions)
    (hasCallback : Bool) (error : Option ε) (response : Response)
    (body : String) : HealthcheckResult ε :=
  let uriLogs := (constructUriM ⟨opts, []⟩ none).2.logTrace
  match processRequestResults error response body with
  | .thrown k logs => .thrown k (uriLogs ++ logs)
  | .callback data err logs =>
    if errTruthy err then
      .completed [("OFFLINE", id)]
        (uriLogs ++ logs ++
          [⟨"error", "\nError with external system with ID:\n" ++ id⟩,
           ⟨"warn", "ServiceNow: Instance is unavailable."⟩])
        (if hasCallback then some (data, err) else none)
    else
      .completed [("ONLINE", id)]
        (uriLogs ++ logs ++
          [⟨"debug", "\nExternal system is available and healthy!"⟩,
           ⟨"info", "ServiceNow: Instance is available."⟩])
        (if hasCallback then some (data, err) else none)

theorem getField_setField_same (r : Record) (k : String) (v : Json) :
    getField (setField r k v) k = v := by
  induction r with
  | nil => simp [setField, getField]
  | cons p rest ih =>
      obtain ⟨pk, pv⟩ := p
      by_cases h : pk = k <;> simp_all [setField, getField]

theorem getField_setField_ne (r : Record) (k k' : String) (v : Json)
    (h : k' ≠ k) : getField (setField r k v) k' = getField r k' := by
  have h' : ¬k = k' := fun hh => h hh.symm
  induction r with
  | nil => simp_all [setField, getField]
  | cons p rest ih =>
      obtain ⟨pk, pv⟩ := p
      by_cases hp : pk = k <;> by_cases hk : pk = k' <;>
        simp_all [setField, getField]

theorem hasField_setField_same (r : Record) (k : String) (v : Json) :
    hasField (setField r k v) k = true := by
  induction r with
  | nil => simp [setField, hasField]
  | cons p rest ih =>
      obtain ⟨pk, pv⟩ := p
      by_cases h : pk = k <;> simp_all [setField, hasField]

theorem hasField_setField_ne (r : Record) (k k' : String) (v : Json)
    (h : k' ≠ k) : hasField (setField r k v) k' = hasField r k' := by
  have h' : ¬k = k' := fun hh => h hh.symm
  induction r with
  | nil => simp_all [setField, hasField]
  | cons p rest ih =>
      obtain ⟨pk, pv⟩ := p
      by_cases hp : pk = k <;> by_cases hk : pk = k' <;>
        simp_all [setField, hasField]

theorem hasField_deleteField (r : Record) (k k' : String) :
    hasField (deleteField r k) k' = (decide (k' ≠ k) && hasField r k') := by
  induction r with
  | nil => simp [deleteField, hasField]
  | cons p rest ih =>
      obtain ⟨pk, pv⟩ := p
      by_cases hp : pk = k <;> by_cases hk : pk = k' <;>
        simp_all [deleteField, List.filter_cons, hasField]

theorem getField_deleteField_ne (r : Record) (k k' : String) (h : k' ≠ k) :
    getField (deleteField r k) k' = getField r k' := by
  induction r with
  | nil => simp [deleteField, getField]
  | cons p rest ih =>
      obtain ⟨pk, pv⟩ := p
      by_cases hp : pk = k <;> by_cases hk : pk = k' <;>
        simp_all [deleteField, List.filter_cons, getField]

theorem hasField_foldl_delete (L : List String) (r : Record) (k : String) :
    hasField (L.foldl (fun acc x => deleteField acc x) r) k =
      (hasField r k && !(decide (k ∈ L))) := by
  induction L generalizing r with
  | nil => simp
  | cons x L ih =>
      simp only [List.foldl_cons, ih, hasField_deleteField, List.mem_cons]
      by_cases hx : k = x <;> by_cases hm : k ∈ L <;> simp_all

theorem getField_foldl_delete (L : List String) (r : Record) (k : String)
    (h : k ∉ L) :
    getField (L.foldl (fun acc x => deleteField acc x) r) k = getField r k := by
  induction L generalizing r with
  | nil => simp
  | cons x L ih =>
      simp only [List.mem_cons, not_or] at h
      simp only [List.foldl_cons, ih _ h.2, getField_deleteField_ne _ _ _ h.1]

theorem ctn_not_removed : "change_ticket_number" ∉ removalFields := by decide

theorem ctk_not_removed : "change_ticket_key" ∉ removalFields := by decide

/-- The value stored under `change_ticket_number` is the source record's
`number` field. -/
theorem normalizeRecord_number (r : Record) :
    getField (normalizeRecord r) "change_ticket_number" = getField r "number" := by
  unfold normalizeRecord
  rw [getField_foldl_delete _ _ _ ctn_not_removed,
    getField_setField_ne _ _ _ _ (by decide),
    getField_setField_same]

/-- The value stored under `change_ticket_key` is the source record's
`sys_id` field. -/
theorem normalizeRecord_key (r : Record) :
    getField (normalizeRecord r) "change_ticket_key" = getField r "sys_id" := by
  unfold normalizeRecord
  rw [getField_foldl_delete _ _ _ ctk_not_removed, getField_setField_same,
    getField_setField_ne _ _ _ _ (by decide)]

/-- Both renamed keys are present in every normalized record. -/
theorem normalizeRecord_hasKeys (r : Record) :
    hasField (normalizeRecord r) "change_ticket_number" = true ∧
      hasField (normalizeRecord r) "change_ticket_key" = true := by
  unfold normalizeRecord
  constructor
  · rw [hasField_foldl_delete]
    simp only [decide_eq_false ctn_not_removed, Bool.not_false, Bool.and_true]
    rw [hasField_setField_ne _ _ _ _ (by decide), hasField_setField_same]
  · rw [hasField_foldl_delete]
    simp only [decide_eq_false ctk_not_removed, Bool.not_false, Bool.and_true]
    rw [hasField_setField_same]

/-- No field of the removal set survives normalization. -/
theorem normalizeRecord_removed (r : Record) (k : String)
    (hk : k ∈ removalFields) : hasField (normalizeRecord r) k = false := by
  unfold normalizeRecord
  rw [hasField_foldl_delete]
  simp [hk]

theorem getField_of_not_hasField (r : Record) (k : String)
    (h : hasField r k = false) : getField r k = .undefined := by
  induction r with
  | nil => rfl
  | cons p rest ih =>
      obtain ⟨pk, pv⟩ := p
      simp only [hasField, Bool.or_eq_false_iff, decide_eq_false_iff_not] at h
      simp [getField, h.1, ih h.2]

set_option maxRecDepth 4000 in
theorem regex2dd_ball :
    ∀ n < 300, 200 ≤ n → regexTest2dd (Nat.repr n).toList = true := by decide

theorem validResponseTest_of_2xx (c : Int) (h1 : 200 ≤ c) (h2 : c ≤ 299) :
    validResponseTest c = true := by
  have hc : ¬c < 0 := by omega
  have h3 : c.natAbs < 300 := by omega
  have h4 : 200 ≤ c.natAbs := by omega
  simp only [validResponseTest, statusStr, if_neg hc]
  exact regex2dd_ball c.natAbs h3 h4

theorem normalizeElems_of_objs (xs : List Json)
    (h : ∀ e ∈ xs, ∃ fields, e = Json.obj fields) :
    normalizeElems xs = .ok (xs.map projElem) := by
  induction xs with
  | nil => rfl
  | cons x xs ih =>
      obtain ⟨fields, hx⟩ := h x (List.mem_cons_self x xs)
      subst hx
      have hrest := ih (fun e he => h e (List.mem_cons_of_mem _ he))
      simp [normalizeElems, normalizeElem, projElem, hrest]

theorem getResultField_error_eq (jb : Json) (k : JsError)
    (h : getResultField jb = .error k) : k = .typeError := by
  cases jb <;> simp_all [getResultField]

/-- The success path of `processRequestResults`: no transport error, not
hibernating, 2xx status, non-empty body parsing to a value whose `result`
is an array of record objects. -/
theorem pr_success {ε : Type} (r : Response) (body : String)
    (jb : Json) (elems : List Json) (props : List (String × Json))
    (hh : isHibernating r = false) (h1 : 200 ≤ r.statusCode)
    (h2 : r.statusCode ≤ 299) (hb : r.body ≠ "")
    (hp : parseJson r.body = some jb)
    (hres : getResultField jb = .ok (.arr elems props))
    (hobj : ∀ e ∈ elems, ∃ fields, e = Json.obj fields) :
    processRequestResults (ε := ε) none r body =
      .callback (some (.arr (elems.map projElem) props)) .null [] := by
  have hv := validResponseTest_of_2xx r.statusCode h1 h2
  have hne := normalizeElems_of_objs elems hobj
  simp [processRequestResults, hh, hv, hb, hp, hres, hne]

theorem beginsWith_refl (l : List Char) : beginsWith l l = true := by
  induction l with
  | nil => rfl
  | cons c cs ih => simp [beginsWith, ih]

theorem containsChars_append (a b : List Char) :
    containsChars (a ++ b) b = true := by
  induction a with
  | nil =>
      cases b with
      | nil => rfl
      | cons c cs => simp [containsChars, beginsWith_refl]
  | cons c cs ih => simp [containsChars, ih]

theorem strIncludes_append (a b : String) : strIncludes (a ++ b) b = true := by
  have hd : (a ++ b).toList = a.toList ++ b.toList := by
    cases a
    cases b
    rfl
  simp [strIncludes, hd, containsChars_append]

/-- C1: for every successful GET response (no transport error, not
hibernating, 2xx status, non-empty body whose JSON has a `result` array of
record objects), every element of the list passed as the callback's data
argument has `change_ticket_number` equal to that input element's `number`
field and `change_ticket_key` equal to its `sys_id` field, and contains no
field of the fixed removal set (`number`, `sys_id`, and the enumerated
metadata fields). -/
theorem c1_normalized_records {ε : Type} (r : Response) (body : String)
    (jb : Json) (elems : List Json) (props : List (String × Json))
    (hh : isHibernating r = false) (h1 : 200 ≤ r.statusCode)
    (h2 : r.statusCode ≤ 299) (hb : r.body ≠ "")
    (hp : parseJson r.body = some jb)
    (hres : getResultField jb = .ok (.arr elems props))
    (hobj : ∀ e ∈ elems, ∃ fields, e = Json.obj fields) :
    processRequestResults (ε := ε) none r body =
      .callback (some (.arr (elems.map projElem) props)) .null [] ∧
    ∀ fields, Json.obj fields ∈ elems →
      getField (normalizeRecord fields) "change_ticket_number" =
          getField fields "number" ∧
        getField (normalizeRecord fields) "change_ticket_key" =
          getField fields "sys_id" ∧
        ∀ k ∈ removalFields, hasField (normalizeRecord fields) k = false :=
  ⟨pr_success r body jb elems props hh h1 h2 hb hp hres hobj,
    fun fields _ =>
      ⟨normalizeRecord_number fields, normalizeRecord_key fields,
        fun k hk => normalizeRecord_removed fields k hk⟩⟩

theorem c1_witness :
    processRequestResults (ε := Unit) none
        ⟨200, "\x7b\"result\":[\x7b\"number\":\"CHG001\",\"sys_id\":\"abc\",\"risk\":\"high\"\x7d]\x7d"⟩
        "\x7b\"result\":[\x7b\"number\":\"CHG001\",\"sys_id\":\"abc\",\"risk\":\"high\"\x7d]\x7d" =
      .callback
        (some (.arr ([Json.obj [("number", Json.str "CHG001"),
          ("sys_id", Json.str "abc"), ("risk", Json.str "high")]].map projElem) []))
        .null [] ∧
    getField (normalizeRecord [("number", Json.str "CHG001"),
        ("sys_id", Json.str "abc"), ("risk", Json.str "high")])
        "change_ticket_number" =
      getField [("number", Json.str "CHG001"), ("sys_id", Json.str "abc"),
        ("risk", Json.str "high")] "number" ∧
    getField (normalizeRecord [("number", Json.str "CHG001"),
        ("sys_id", Json.str "abc"), ("risk", Json.str "high")])
        "change_ticket_key" =
      getField [("number", Json.str "CHG001"), ("sys_id", Json.str "abc"),
        ("risk", Json.str "high")] "sys_id" ∧
    hasField (normalizeRecord [("number", Json.str "CHG001"),
        ("sys_id", Json.str "abc"), ("risk", Json.str "high")]) "risk" = false := by
  have h := c1_normalized_records (ε := Unit)
    ⟨200, "\x7b\"result\":[\x7b\"number\":\"CHG001\",\"sys_id\":\"abc\",\"risk\":\"high\"\x7d]\x7d"⟩
    "\x7b\"result\":[\x7b\"number\":\"CHG001\",\"sys_id\":\"abc\",\"risk\":\"high\"\x7d]\x7d"
    (.obj [("result", .arr [.obj [("number", .str "CHG001"),
      ("sys_id", .str "abc"), ("risk", .str "high")]] [])])
    [.obj [("number", .str "CHG001"), ("sys_id", .str "abc"),
      ("risk", .str "high")]] []
    (by decide) (by decide) (by decide) (by decide) rfl rfl
    (by intro e he; rw [List.mem_singleton] at he; exact ⟨_, he⟩)
  have h2 := h.2 [("number", Json.str "CHG001"), ("sys_id", Json.str "abc"),
    ("risk", Json.str "high")] (List.mem_singleton.mpr rfl)
  exact ⟨h.1, h2.1, h2.2.1, h2.2.2 "risk" (by decide)⟩

/-- C2: for every invocation with a non-null transport error, the callback
receives `(null, <that error>)` with only the `Error present.` log line, for
every value of the response and body arguments — the outcome is independent
of them, so neither the hibernating check nor the status-code check can
influence it. -/
theorem c2_transport_error {ε : Type} (e : ε) (r : Response) (body : String) :
    processRequestResults (some e) r body =
      .callback none (.val (.transport e)) [⟨"error", "Error present."⟩] := rfl

/-- C3: `isHibernating` holds exactly when the body contains the hibernating
marker and an `<html>` tag and the status code is 200; and on every
transport-error-free response satisfying it, the callback receives
`(null, "Hibernating instance")`, whatever the body string is (JSON-valid
or not). -/
theorem c3_hibernating :
    (∀ r : Response, isHibernating r = true ↔
      strIncludes r.body "Instance Hibernating page" = true ∧
        strIncludes r.body "<html>" = true ∧ r.statusCode = 200) ∧
    ∀ (ε : Type) (r : Response) (body : String), isHibernating r = true →
      processRequestResults (ε := ε) none r body =
        .callback none (.val (.str "Hibernating instance"))
          [⟨"error", "Hibernating instance"⟩] := by
  constructor
  · intro r
    simp [isHibernating, Bool.and_eq_true, decide_eq_true_iff]
  · intro ε r body hr
    simp [processRequestResults, hr]

theorem c3_witness :
    processRequestResults (ε := Unit) none
        ⟨200, "<html>Instance Hibernating page</html>"⟩ "not json" =
      .callback none (.val (.str "Hibernating instance"))
        [⟨"error", "Hibernating instance"⟩] :=
  c3_hibernating.2 Unit ⟨200, "<html>Instance Hibernating page</html>"⟩
    "not json" (by decide)

/-- C4 as stated is false: the status code 1200 lies outside the 2xx range,
yet `(2\d\d)` matches the substring `200` of `"1200"`, so the connector
takes the success branch (here: empty body, hence `(null, null)`) instead of
passing `(null, response)` to the callback. -/
theorem c4_counterexample :
    ¬(200 ≤ (1200 : Int) ∧ (1200 : Int) ≤ 299) ∧
    validResponseTest 1200 = true ∧
    processRequestResults (ε := Unit) none ⟨1200, ""⟩ "" =
      .callback none .null [] ∧
    PRResult.callback (ε := Unit) none .null [] ≠
      .callback none (.val (.resp ⟨1200, ""⟩))
        [⟨"error", "Bad response code."⟩] := by
  refine ⟨by omega, by decide, rfl, ?_⟩
  intro h
  injection h with h1 h2 h3
  exact JsOpt.noConfusion h2

/-- C4 amended: for every response with no transport error and not
hibernating whose status code's decimal string contains no substring
matching `2\d\d` (the unanchored regex fails), the callback receives
`(null, <the raw response object>)`; numeric codes outside 200–299 whose
decimal string does contain such a substring (such as 1200) are instead
treated as valid. -/
theorem c4_amended {ε : Type} (r : Response) (body : String)
    (hh : isHibernating r = false)
    (hv : validResponseTest r.statusCode = false) :
    processRequestResults (ε := ε) none r body =
      .callback none (.val (.resp r)) [⟨"error", "Bad response code."⟩] := by
  simp [processRequestResults, hh, hv]

theorem c4_witness :
    processRequestResults (ε := Unit) none ⟨500, "error page"⟩ "error page" =
      .callback none (.val (.resp ⟨500, "error page"⟩))
        [⟨"error", "Bad response code."⟩] :=
  c4_amended _ _ (by decide) (by decide)

/-- C5 as stated is false in its success clause: on a successful
healthcheck the adapter passes the connector's error-channel value straight
through, and that value is `null`, not `undefined`.  Concretely, a 200
response with an empty body completes with one `ONLINE` event and the
callback invoked with second argument `null`. -/
theorem c5_counterexample :
    healthcheckRun (ε := Unit) "adapter1"
        ⟨"https://dev.example", "admin", "secret", "change_request"⟩
        true none ⟨200, ""⟩ "" =
      .completed [("ONLINE", "adapter1")]
        [⟨"debug", "URI: /api/now/table/change_request"⟩,
         ⟨"debug", "\nExternal system is available and healthy!"⟩,
         ⟨"info", "ServiceNow: Instance is available."⟩]
        (some (none, JsOpt.null)) ∧
    (JsOpt.null : JsOpt (ErrVal Unit)) ≠ JsOpt.undefined :=
  ⟨rfl, fun h => JsOpt.noConfusion h⟩

/-- C5 amended: when the connector reports a (truthy) error the adapter
emits exactly one `OFFLINE` event carrying the instance id, writes an
error-severity log entry whose message contains the id, and invokes the
optional callback with `(result, error)`; when the connector reports no
error it emits exactly one `ONLINE` event carrying the id, logs at debug
severity, and invokes the optional callback with `(result, null)` — the
connector's `null` error value, not `undefined`. -/
theorem c5_amended {ε : Type} (id : String) (opts : ConnectorOptions)
    (hasCallback : Bool) (error : Option ε) (r : Response) (body : String) :
    (∀ data e logs, processRequestResults error r body =
        .callback data (.val e) logs →
      healthcheckRun id opts hasCallback error r body =
        .completed [("OFFLINE", id)]
          ((constructUriM ⟨opts, []⟩ none).2.logTrace ++ logs ++
            [⟨"error", "\nError with external system with ID:\n" ++ id⟩,
             ⟨"warn", "ServiceNow: Instance is unavailable."⟩])
          (if hasCallback then some (data, .val e) else none) ∧
        strIncludes ("\nError with external system with ID:\n" ++ id) id =
          true) ∧
    ∀ data logs, processRequestResults error r body =
        .callback data .null logs →
      healthcheckRun id opts hasCallback error r body =
        .completed [("ONLINE", id)]
          ((constructUriM ⟨opts, []⟩ none).2.logTrace ++ logs ++
            [⟨"debug", "\nExternal system is available and healthy!"⟩,
             ⟨"info", "ServiceNow: Instance is available."⟩])
          (if hasCallback then some (data, JsOpt.null) else none) := by
  constructor
  · intro data e logs hpr
    refine ⟨?_, strIncludes_append _ id⟩
    simp [healthcheckRun, hpr, errTruthy]
  · intro data logs hpr
    simp [healthcheckRun, hpr, errTruthy]

theorem c5_witness :
    (healthcheckRun (ε := String) "adapter1"
        ⟨"https://dev.example", "admin", "secret", "change_request"⟩
        true (some "ECONNREFUSED") ⟨0, ""⟩ "" =
      .completed [("OFFLINE", "adapter1")]
        [⟨"debug", "URI: /api/now/table/change_request"⟩,
         ⟨"error", "Error present."⟩,
         ⟨"error", "\nError with external system with ID:\nadapter1"⟩,
         ⟨"warn", "ServiceNow: Instance is unavailable."⟩]
        (some (none, .val (.transport "ECONNREFUSED"))) ∧
      strIncludes ("\nError with external system with ID:\n" ++ "adapter1")
        "adapter1" = true) ∧
    healthcheckRun (ε := String) "adapter1"
        ⟨"https://dev.example", "admin", "secret", "change_request"⟩
        true none ⟨200, ""⟩ "" =
      .completed [("ONLINE", "adapter1")]
        [⟨"debug", "URI: /api/now/table/change_request"⟩,
         ⟨"debug", "\nExternal system is available and healthy!"⟩,
         ⟨"info", "ServiceNow: Instance is available."⟩]
        (some (none, JsOpt.null)) :=
  ⟨(c5_amended "adapter1"
      ⟨"https://dev.example", "admin", "secret", "change_request"⟩
      true (some "ECONNREFUSED") ⟨0, ""⟩ "").1
      none (.transport "ECONNREFUSED") [⟨"error", "Error present."⟩] rfl,
    (c5_amended "adapter1"
      ⟨"https://dev.example", "admin", "secret", "change_request"⟩
      true none ⟨200, ""⟩ "").2 none [] rfl⟩

/-- C6: for every response with no transport error, not hibernating, with a
2xx status code: on a non-empty body (parsing to a value whose `result` is
an array of record objects) the callback receives the projected result list
and a null error; on an empty body it receives `(null, null)`. -/
theorem c6_success_callback {ε : Type} (r : Response) (body : String)
    (hh : isHibernating r = false) (h1 : 200 ≤ r.statusCode)
    (h2 : r.statusCode ≤ 299) :
    (∀ jb elems props, r.body ≠ "" → parseJson r.body = some jb →
      getResultField jb = .ok (.arr elems props) →
      (∀ e ∈ elems, ∃ fields, e = Json.obj fields) →
      processRequestResults (ε := ε) none r body =
        .callback (some (.arr (elems.map projElem) props)) .null []) ∧
    (r.body = "" →
      processRequestResults (ε := ε) none r body = .callback none .null []) := by
  refine ⟨fun jb elems props hb hp hres hobj =>
    pr_success r body jb elems props hh h1 h2 hb hp hres hobj, fun hb => ?_⟩
  have hv := validResponseTest_of_2xx r.statusCode h1 h2
  simp [processRequestResults, hh, hv, hb]

theorem c6_witness :
    processRequestResults (ε := Unit) none ⟨201, "\x7b\"result\":[]\x7d"⟩
        "\x7b\"result\":[]\x7d" =
      .callback (some (.arr (([] : List Json).map projElem) [])) .null [] ∧
    processRequestResults (ε := Unit) none ⟨204, ""⟩ "" =
      .callback none .null [] :=
  ⟨(c6_success_callback (ε := Unit) ⟨201, "\x7b\"result\":[]\x7d"⟩
      "\x7b\"result\":[]\x7d" (by decide) (by decide) (by decide)).1
      (.obj [("result", .arr [] [])]) [] [] (by decide) rfl rfl
      (by intro e he; cases he),
    (c6_success_callback (ε := Unit) ⟨204, ""⟩ "" (by decide) (by decide)
      (by decide)).2 rfl⟩

/-- C7: a non-empty body that is not valid JSON on an otherwise successful
response makes the parse failure propagate out as an uncaught error: the
function's outcome is the thrown `SyntaxError` and is not a callback
invocation. -/
theorem c7_malformed_json_throws {ε : Type} (r : Response) (body : String)
    (hh : isHibernating r = false) (h1 : 200 ≤ r.statusCode)
    (h2 : r.statusCode ≤ 299) (hb : r.body ≠ "")
    (hp : parseJson r.body = none) :
    processRequestResults (ε := ε) none r body = .thrown .syntaxError [] ∧
    ∀ data err logs,
      processRequestResults (ε := ε) none r body ≠ .callback data err logs := by
  have hv := validResponseTest_of_2xx r.statusCode h1 h2
  have heq : processRequestResults (ε := ε) none r body =
      .thrown .syntaxError [] := by
    simp [processRequestResults, hh, hv, hb, hp]
  refine ⟨heq, fun data err logs hc => ?_⟩
  rw [heq] at hc
  exact PRResult.noConfusion hc

theorem c7_witness :
    processRequestResults (ε := Unit) none ⟨200, "\x7b"⟩ "\x7b" =
      .thrown .syntaxError [] :=
  (c7_malformed_json_throws ⟨200, "\x7b"⟩ "\x7b" (by decide) (by decide)
    (by decide) (by decide) rfl).1

/-- C8 as stated is false for a provided empty query: `constructUri` tests
the query for truthiness, the empty string is falsy, so the result carries
no `?` suffix. -/
theorem c8_counterexample :
    (constructUriM
        ⟨⟨"https://dev.example", "admin", "secret", "change_request"⟩, []⟩
        (some "")).1 = "/api/now/table/change_request" ∧
    (constructUriM
        ⟨⟨"https://dev.example", "admin", "secret", "change_request"⟩, []⟩
        (some "")).1 ≠ "/api/now/table/change_request" ++ "?" ++ "" :=
  ⟨rfl, by decide⟩

/-- C8 amended: `constructUri` returns `/api/now/table/<serviceNowTable>`,
suffixed with `?` and the query when the provided query is non-empty
(truthy); with no query or an empty query there is no suffix.  Two calls
with the same query return identical output, and the stored configuration
is unchanged by a call (only a debug log line is emitted). -/
theorem c8_amended (s : ConnectorState) (q : String) (hq : q ≠ "") :
    (constructUriM s (some q)).1 =
        "/api/now/table/" ++ s.options.serviceNowTable ++ "?" ++ q ∧
      (constructUriM s none).1 = "/api/now/table/" ++ s.options.serviceNowTable ∧
      (constructUriM s (some "")).1 =
        "/api/now/table/" ++ s.options.serviceNowTable ∧
      (constructUriM ((constructUriM s (some q)).2) (some q)).1 =
        (constructUriM s (some q)).1 ∧
      (constructUriM s (some q)).2.options = s.options ∧
      (constructUriM s none).2.options = s.options := by
  refine ⟨?_, rfl, ?_, ?_, rfl, rfl⟩ <;> simp [constructUriM, hq]

theorem c8_witness :
    (constructUriM
        ⟨⟨"https://dev.example", "admin", "secret", "change_request"⟩, []⟩
        (some "sysparm_limit=1")).1 =
        "/api/now/table/" ++ "change_request" ++ "?" ++ "sysparm_limit=1" ∧
      (constructUriM
        ⟨⟨"https://dev.example", "admin", "secret", "change_request"⟩, []⟩
        none).1 = "/api/now/table/" ++ "change_request" ∧
      (constructUriM
        ⟨⟨"https://dev.example", "admin", "secret", "change_request"⟩, []⟩
        (some "")).1 = "/api/now/table/" ++ "change_request" ∧
      (constructUriM ((constructUriM
        ⟨⟨"https://dev.example", "admin", "secret", "change_request"⟩, []⟩
        (some "sysparm_limit=1")).2) (some "sysparm_limit=1")).1 =
        (constructUriM
        ⟨⟨"https://dev.example", "admin", "secret", "change_request"⟩, []⟩
        (some "sysparm_limit=1")).1 ∧
      (constructUriM
        ⟨⟨"https://dev.example", "admin", "secret", "change_request"⟩, []⟩
        (some "sysparm_limit=1")).2.options =
        ⟨"https://dev.example", "admin", "secret", "change_request"⟩ ∧
      (constructUriM
        ⟨⟨"https://dev.example", "admin", "secret", "change_request"⟩, []⟩
        none).2.options =
        ⟨"https://dev.example", "admin", "secret", "change_request"⟩ :=
  c8_amended
    ⟨⟨"https://dev.example", "admin", "secret", "change_request"⟩, []⟩
    "sysparm_limit=1" (by decide)

/-- C9: on the successful GET path the projected output contains the keys
`change_ticket_number` and `change_ticket_key` unconditionally: even when
the source record has no `number` or `sys_id` field the key is created, and
its value is then `undefined` — stronger than a conditional guarantee. -/
theorem c9_keys_unconditional {ε : Type} (r : Response) (body : String)
    (jb : Json) (elems : List Json) (props : List (String × Json))
    (hh : isHibernating r = false) (h1 : 200 ≤ r.statusCode)
    (h2 : r.statusCode ≤ 299) (hb : r.body ≠ "")
    (hp : parseJson r.body = some jb)
    (hres : getResultField jb = .ok (.arr elems props))
    (hobj : ∀ e ∈ elems, ∃ fields, e = Json.obj fields) :
    processRequestResults (ε := ε) none r body =
      .callback (some (.arr (elems.map projElem) props)) .null [] ∧
    ∀ fields, Json.obj fields ∈ elems →
      hasField (normalizeRecord fields) "change_ticket_number" = true ∧
        hasField (normalizeRecord fields) "change_ticket_key" = true ∧
        (hasField fields "number" = false →
          getField (normalizeRecord fields) "change_ticket_number" =
            Json.undefined) ∧
        (hasField fields "sys_id" = false →
          getField (normalizeRecord fields) "change_ticket_key" =
            Json.undefined) :=
  ⟨pr_success r body jb elems props hh h1 h2 hb hp hres hobj,
    fun fields _ =>
      ⟨(normalizeRecord_hasKeys fields).1, (normalizeRecord_hasKeys fields).2,
        fun hn => by
          rw [normalizeRecord_number, getField_of_not_hasField _ _ hn],
        fun hn => by
          rw [normalizeRecord_key, getField_of_not_hasField _ _ hn]⟩⟩

theorem c9_witness :
    processRequestResults (ε := Unit) none
        ⟨200, "\x7b\"result\":[\x7b\"risk\":\"high\"\x7d]\x7d"⟩
        "\x7b\"result\":[\x7b\"risk\":\"high\"\x7d]\x7d" =
      .callback
        (some (.arr ([Json.obj [("risk", Json.str "high")]].map projElem) []))
        .null [] ∧
    hasField (normalizeRecord [("risk", Json.str "high")])
        "change_ticket_number" = true ∧
    hasField (normalizeRecord [("risk", Json.str "high")])
        "change_ticket_key" = true ∧
    getField (normalizeRecord [("risk", Json.str "high")])
        "change_ticket_number" = Json.undefined ∧
    getField (normalizeRecord [("risk", Json.str "high")])
        "change_ticket_key" = Json.undefined := by
  have h := c9_keys_unconditional (ε := Unit)
    ⟨200, "\x7b\"result\":[\x7b\"risk\":\"high\"\x7d]\x7d"⟩
    "\x7b\"result\":[\x7b\"risk\":\"high\"\x7d]\x7d"
    (.obj [("result", .arr [.obj [("risk", .str "high")]] [])])
    [.obj [("risk", .str "high")]] []
    (by decide) (by decide) (by decide) (by decide) rfl rfl
    (by intro e he; rw [List.mem_singleton] at he; exact ⟨_, he⟩)
  have h2 := h.2 [("risk", Json.str "high")] (List.mem_singleton.mpr rfl)
  exact ⟨h.1, h2.1, h2.2.1, h2.2.2.1 (by decide), h2.2.2.2 (by decide)⟩

/-- C10: a valid-JSON body whose parsed value has no `result` array (a
missing key, a `null` receiver, a primitive, or a non-array `result`) makes
the success branch throw an uncaught `TypeError`, and the callback is never
invoked. -/
theorem c10_missing_result_throws {ε : Type} (r : Response) (body : String)
    (jb : Json) (hh : isHibernating r = false) (h1 : 200 ≤ r.statusCode)
    (h2 : r.statusCode ≤ 299) (hb : r.body ≠ "")
    (hp : parseJson r.body = some jb)
    (hres : ∀ elems props, getResultField jb ≠ .ok (.arr elems props)) :
    processRequestResults (ε := ε) none r body = .thrown .typeError [] ∧
    ∀ data err logs,
      processRequestResults (ε := ε) none r body ≠ .callback data err logs := by
  have hv := validResponseTest_of_2xx r.statusCode h1 h2
  have heq : processRequestResults (ε := ε) none r body =
      .thrown .typeError [] := by
    cases hg : getResultField jb with
    | error k =>
        have hk := getResultField_error_eq jb k hg
        subst hk
        simp [processRequestResults, hh, hv, hb, hp, hg]
    | ok v =>
        cases v with
        | arr elems props => exact absurd hg (hres elems props)
        | undefined => simp [processRequestResults, hh, hv, hb, hp, hg]
        | null => simp [processRequestResults, hh, hv, hb, hp, hg]
        | bool b => simp [processRequestResults, hh, hv, hb, hp, hg]
        | num lit => simp [processRequestResults, hh, hv, hb, hp, hg]
        | str s => simp [processRequestResults, hh, hv, hb, hp, hg]
        | obj fields => simp [processRequestResults, hh, hv, hb, hp, hg]
  refine ⟨heq, fun data err logs hc => ?_⟩
  rw [heq] at hc
  exact PRResult.noConfusion hc

theorem c10_witness :
    processRequestResults (ε := Unit) none ⟨200, "\x7b\x7d"⟩ "\x7b\x7d" =
      .thrown .typeError [] :=
  (c10_missing_result_throws ⟨200, "\x7b\x7d"⟩ "\x7b\x7d" (Json.obj [])
    (by decide) (by decide) (by decide) (by decide) rfl
    (by intro elems props h; simp [getResultField, getField] at h)).1

end SNow
